import Mathlib

/-!
Verification of the LVGL workshop frame pipeline (pedapudi/lvgl_workshop).

This file shallowly embeds the pixel-correction, buffer-allocation,
locking, tiling and touch-input logic of the repository and proves (or
refutes) the frozen specification claims about them.

Machine integers are modelled as `Nat` with explicit `% 2 ^ w`
truncation where the C code truncates; fallible operations return
`Option`; stateful callbacks are modelled as explicit state-passing
functions.
-/

/- ## Pixel corrector (src/unnamed/part_000 SWAR routine,
     src/main/sys/lvgl_port.cpp flush_cb, src/unnamed/part_007 flush_cb) -/

/-- Word-parallel two-pixel byte swap from the SWAR routine
(src/unnamed/part_000, swap_two_pixels lambda):
`((v & 0xFF00FF00) >> 8) | ((v & 0x00FF00FF) << 8)` on `uint32_t`. -/
def swap_two_pixels (v : Nat) : Nat :=
  ((v &&& 0xFF00FF00) >>> 8) ||| ((v &&& 0x00FF00FF) <<< 8)

/-- Semantics of the compiler builtin `__builtin_bswap16` on a `uint16_t`
value: exchange the low and high bytes,
`((p & 0xFF) << 8) | (p >> 8)`.  Used by the intrinsic flush paths in
src/main/sys/lvgl_port.cpp and src/unnamed/part_007. -/
def bswap16 (p : Nat) : Nat :=
  ((p &&& 0xFF) <<< 8) ||| (p >>> 8)

/-- Scalar manual byte swap of the part_007 flush_cb no-intrinsics path:
`*buf16 = (uint16_t)((*buf16 >> 8) | (*buf16 << 8))`. -/
def swap16_scalar (p : Nat) : Nat :=
  ((p >>> 8) ||| (p <<< 8)) % 2 ^ 16

/-- Truncating bitwise complement: the effect of C `(uint16_t)(~e)` for a
non-negative `int` expression `e` (flip the low 16 bits, drop the
rest). -/
def not16 (y : Nat) : Nat :=
  (y % 2 ^ 16) ^^^ 0xFFFF

/-- Intrinsic correction path of src/main/sys/lvgl_port.cpp flush_cb
(use_intrinsics = true): `buf[i] = ~__builtin_bswap16(buf[i])`. -/
def correct_intrinsic (p : Nat) : Nat :=
  not16 (bswap16 p)

/-- Manual correction path of src/main/sys/lvgl_port.cpp flush_cb
(use_intrinsics = false): `buf[i] = ~((color << 8) | (color >> 8))`
with `color` a `uint16_t` promoted to `int`. -/
def correct_manual (p : Nat) : Nat :=
  not16 ((p <<< 8) ||| (p >>> 8))

/-- One pixel through the src/main/sys/lvgl_port.cpp flush_cb, selected by
the only flush-relevant knob of LvglPort::Config, `use_intrinsics`. -/
def flush_pixel (use_intrinsics : Bool) (p : Nat) : Nat :=
  if use_intrinsics then correct_intrinsic p else correct_manual p

/-- The src/main/sys/lvgl_port.cpp flush_cb over a whole pixel buffer:
every pixel goes through the selected correction path. -/
def flush_buffer (use_intrinsics : Bool) (l : List Nat) : List Nat :=
  l.map (flush_pixel use_intrinsics)

/-- Word-parallel byte swap of a pixel buffer: the `uint16_t` buffer is
viewed as little-endian packed `uint32_t` words (src/unnamed/part_000:
`uint32_t* buf32 = reinterpret_cast<uint32_t*>(buf)`), and every word
goes through `swap_two_pixels`.  A trailing single pixel (odd pixel
count) is part of no word and is left untouched, as in the source
routine. -/
def swar_swap_buffer : List Nat → List Nat
  | p :: q :: rest =>
      let w := swap_two_pixels (p + 2 ^ 16 * q)
      w % 2 ^ 16 :: w / 2 ^ 16 :: swar_swap_buffer rest
  | l => l

/- ## SWAR loop index model (src/unnamed/part_000, lines 296 to 326) -/

/-- C `size_t` subtraction with 64-bit wrap-around, for operands below
2 ^ 64; models the loop bound expression `len32 - 8`. -/
def sub_usize (a b : Nat) : Nat :=
  (a + 2 ^ 64 - b) % 2 ^ 64

/-- The word count `size_t len32 = len / 2` of the SWAR routine, `len`
being the pixel count of the flushed area. -/
def swar_len32 (len : Nat) : Nat := len / 2

/-- Bound of the unrolled loop `for (; i < len32 - 8; i += 8)` in
`size_t` arithmetic. -/
def unrolled_bound (len32 : Nat) : Nat := sub_usize len32 8

/-- Word indices accessed by one unrolled-loop body starting at `i`
(the body reads and writes `buf32[i + 0]` through `buf32[i + 7]`). -/
def unrolled_body_accesses (i : Nat) : List Nat :=
  [i, i + 1, i + 2, i + 3, i + 4, i + 5, i + 6, i + 7]

/- ## Buffer sizing and allocation (src/main/sys/lvgl_port.cpp init,
     src/unnamed/part_007 init) -/

/-- Buffer size computation of LvglPort::init
(src/main/sys/lvgl_port.cpp): full-frame mode allocates
`h_res * v_res * sizeof(uint16_t)` bytes, otherwise a hard-coded
20-line strip `h_res * 20 * sizeof(uint16_t)`; src/unnamed/part_007
computes the same two extents via `buffer_lines`. -/
def draw_buffer_sz (h_res v_res : Nat) (full_frame : Bool) : Nat :=
  if full_frame then h_res * v_res * 2 else h_res * 20 * 2

/-- Outcome of LvglPort::init with respect to the frame-buffer
allocations: either init returns before `set_buffers` and task creation
(aborted), or it proceeds to `set_buffers`, carrying whether the second
buffer pointer is non-null. -/
inductive InitOutcome where
  | aborted : InitOutcome
  | started : Bool → InitOutcome
  deriving DecidableEq

/-- Allocation check of LvglPort::init in src/main/sys/lvgl_port.cpp:
allocate buffer 1, allocate buffer 2 only when double buffered, then
`if (!draw_buffer_) { ESP_LOGE(...); return; }` - only the first buffer
is tested. -/
def init_main (double_buffered alloc1 alloc2 : Bool) : InitOutcome :=
  let buf1 := alloc1
  let buf2 := double_buffered && alloc2
  if !buf1 then .aborted else .started buf2

/-- Allocation check of LvglPort::init in src/unnamed/part_007:
`if (!draw_buf_ || (USE_DOUBLE_BUFFERING && !draw_buf2_)) return;` -
both buffers are tested. -/
def init_p7 (double_buffered alloc1 alloc2 : Bool) : InitOutcome :=
  let buf1 := alloc1
  let buf2 := double_buffered && alloc2
  if !buf1 || (double_buffered && !buf2) then .aborted else .started buf2

/- ## Mutex wait bound (src/main/sys/lvgl_port.cpp lock and task_loop) -/

/-- Upper bound on a wait: finite (milliseconds) or none at all. -/
inductive WaitBound where
  | bounded : Nat → WaitBound
  | unbounded : WaitBound
  deriving DecidableEq

/-- Wait bound of LvglPort::lock (src/main/sys/lvgl_port.cpp):
`timeout_ms == -1 ? portMAX_DELAY : pdMS_TO_TICKS(timeout_ms)`.  The
`uint32_t` argument value of `-1` is 0xFFFFFFFF, and portMAX_DELAY
blocks with no timeout. -/
def lock_wait (timeout_ms : Nat) : WaitBound :=
  if timeout_ms = 0xFFFFFFFF then .unbounded else .bounded timeout_ms

/-- The timeout argument the render task loop passes to lock:
`lock(-1)` in LvglPort::task_loop (src/main/sys/lvgl_port.cpp), i.e.
0xFFFFFFFF after the `uint32_t` conversion. -/
def task_loop_lock_timeout : Nat := 0xFFFFFFFF

/- ## Strip tiling (spec section 4.1; the loop that replays
     rasterization per strip lives in the LVGL library, outside this
     repository) -/

/-- Modelled from the spec: the LVGL render loop that splits a dirty
region of `h` rows into successive strips of at most `s` rows is not
part of this repository (only its buffer sizing is, in
src/main/sys/lvgl_port.cpp); modelled from the spec formula
renders_per_frame = ceil(frame_height / strip_height): one rasterization
invocation consumes up to `s` rows until the region is exhausted. -/
def render_invocations (h s : Nat) : Nat :=
  if h = 0 ∨ s = 0 then 0
  else 1 + render_invocations (h - s) s
termination_by h
decreasing_by omega

/- ## Touch controller (src/unnamed/part_005 Chsc6x::read,
     src/main/sys/lvgl_port.h register_touch_driver) -/

/-- Orientation and resolution part of Chsc6x::Config
(src/main/hw/chsc6x.h): `uint16_t h_res, v_res; bool swap_xy, mirror_x,
mirror_y`. -/
structure TouchCfg where
  h_res : Nat
  v_res : Nat
  swap_xy : Bool
  mirror_x : Bool
  mirror_y : Bool

/-- The three output locations `*x`, `*y`, `*pressed` of Chsc6x::read. -/
structure TouchState where
  x : Nat
  y : Nat
  pressed : Bool
  deriving DecidableEq

/-- C cast `(uint16_t)` of a non-negative-or-negative `int` value. -/
def to_uint16 (z : Int) : Nat := (z % 65536).toNat

/-- Packet decoding of Chsc6x::read (src/unnamed/part_005, lines 73 to
113): on status byte 0x01 extract 10-bit coordinates, apply the
configured swap and mirrors in `int` arithmetic, clip into the screen
bounds and store as `uint16_t`; on any other status byte only
`*pressed = false` is written. -/
def chsc6x_decode (cfg : TouchCfg) (data : Fin 6 → Nat)
    (prev : TouchState) : TouchState :=
  if data 0 = 1 then
    let tx : Nat := data 2 ||| ((data 3 &&& 0x03) <<< 8)
    let ty : Nat := data 4 ||| ((data 5 &&& 0x03) <<< 8)
    let x0 : Int := if cfg.swap_xy then (ty : Int) else (tx : Int)
    let y0 : Int := if cfg.swap_xy then (tx : Int) else (ty : Int)
    let x1 : Int := if cfg.mirror_x then (cfg.h_res : Int) - 1 - x0 else x0
    let y1 : Int := if cfg.mirror_y then (cfg.v_res : Int) - 1 - y0 else y0
    let x2 : Int := if x1 < 0 then 0 else x1
    let x3 : Int := if x2 ≥ (cfg.h_res : Int) then (cfg.h_res : Int) - 1 else x2
    let y2 : Int := if y1 < 0 then 0 else y1
    let y3 : Int := if y2 ≥ (cfg.v_res : Int) then (cfg.v_res : Int) - 1 else y2
    { x := to_uint16 x3, y := to_uint16 y3, pressed := true }
  else
    { x := prev.x, y := prev.y, pressed := false }

/-- Chsc6x::read including the I2C transfer outcome: `none` models
`i2c_master_receive` failing (e.g. ESP_ERR_TIMEOUT after its 100 ms
bound), in which case the function returns the error before touching
any output; `some data` is a completed 6-byte read.  The Bool is
success of the call. -/
def chsc6x_read (res : Option (Fin 6 → Nat)) (cfg : TouchCfg)
    (prev : TouchState) : TouchState × Bool :=
  match res with
  | none => (prev, false)
  | some data => (chsc6x_decode cfg data prev, true)

/-- One input cycle of the read_cb that LvglPort::register_touch_driver
installs (src/main/sys/lvgl_port.h): locals start as
`x = 0, y = 0, pressed = false`, the driver read runs, and the cycle
reports Pressed with a point iff `pressed` ended true, Released
otherwise. -/
def read_cb_result (res : Option (Fin 6 → Nat)) (cfg : TouchCfg) :
    Option (Nat × Nat) :=
  let st := (chsc6x_read res cfg ⟨0, 0, false⟩).1
  if st.pressed then some (st.x, st.y) else none

/-- C `uint32_t` subtraction with wrap-around, for operands below
2 ^ 32; models `esp_log_timestamp() - last_timeout_log`. -/
def sub_u32 (a b : Nat) : Nat :=
  (a + 2 ^ 32 - b) % 2 ^ 32

/-- Timeout-log throttling of Chsc6x::read (src/unnamed/part_005): a
warning is emitted at event time `t` iff `t - last_timeout_log > 5000`,
and then `last_timeout_log = t`.  Given the current `last_timeout_log`
and the timestamps of successive timeout events, this returns the
timestamps at which a warning is actually logged. -/
def throttled_logs : Nat → List Nat → List Nat
  | _, [] => []
  | last, t :: ts =>
      if 5000 < sub_u32 t last then t :: throttled_logs t ts
      else throttled_logs last ts

/- ## Digit-split lemmas for the bitwise operations -/

/-- Bitwise AND distributes over base-2^n digit decomposition. -/
theorem and_split : ∀ (n a b c d : Nat), a < 2 ^ n → b < 2 ^ n →
    (a + 2 ^ n * c) &&& (b + 2 ^ n * d) = (a &&& b) + 2 ^ n * (c &&& d) := by
  intro n
  induction n with
  | zero =>
    intro a b c d ha hb
    have ha0 : a = 0 := by omega
    have hb0 : b = 0 := by omega
    subst ha0; subst hb0
    simp
  | succ n ih =>
    intro a b c d ha hb
    have ex : a + 2 ^ (n + 1) * c = a + 2 ^ n * c * 2 := by ring
    have ey : b + 2 ^ (n + 1) * d = b + 2 ^ n * d * 2 := by ring
    have ez : (a &&& b) + 2 ^ (n + 1) * (c &&& d)
        = (a &&& b) + 2 ^ n * (c &&& d) * 2 := by ring
    have hxdiv : (a + 2 ^ (n + 1) * c) / 2 = a / 2 + 2 ^ n * c := by
      rw [ex, Nat.add_mul_div_right _ _ (by norm_num : (0:Nat) < 2)]
    have hydiv : (b + 2 ^ (n + 1) * d) / 2 = b / 2 + 2 ^ n * d := by
      rw [ey, Nat.add_mul_div_right _ _ (by norm_num : (0:Nat) < 2)]
    have hxmod : (a + 2 ^ (n + 1) * c) % 2 = a % 2 := by
      rw [ex, Nat.add_mul_mod_self_right]
    have hymod : (b + 2 ^ (n + 1) * d) % 2 = b % 2 := by
      rw [ey, Nat.add_mul_mod_self_right]
    have had : a / 2 < 2 ^ n := by omega
    have hbd : b / 2 < 2 ^ n := by omega
    have hdiv : ((a + 2 ^ (n + 1) * c) &&& (b + 2 ^ (n + 1) * d)) / 2
        = ((a &&& b) + 2 ^ (n + 1) * (c &&& d)) / 2 := by
      rw [Nat.and_div_two, hxdiv, hydiv, ih _ _ c d had hbd, ez,
        Nat.add_mul_div_right _ _ (by norm_num : (0:Nat) < 2), Nat.and_div_two]
    have hmod : ((a + 2 ^ (n + 1) * c) &&& (b + 2 ^ (n + 1) * d)) % 2
        = ((a &&& b) + 2 ^ (n + 1) * (c &&& d)) % 2 := by
      rw [ez, Nat.add_mul_mod_self_right]
      have h3 := @Nat.and_mod_two_eq_one (a + 2 ^ (n + 1) * c)
        (b + 2 ^ (n + 1) * d)
      have h4 := @Nat.and_mod_two_eq_one a b
      omega
    omega

/-- Bitwise OR distributes over base-2^n digit decomposition. -/
theorem or_split : ∀ (n a b c d : Nat), a < 2 ^ n → b < 2 ^ n →
    (a + 2 ^ n * c) ||| (b + 2 ^ n * d) = (a ||| b) + 2 ^ n * (c ||| d) := by
  intro n
  induction n with
  | zero =>
    intro a b c d ha hb
    have ha0 : a = 0 := by omega
    have hb0 : b = 0 := by omega
    subst ha0; subst hb0
    simp
  | succ n ih =>
    intro a b c d ha hb
    have ex : a + 2 ^ (n + 1) * c = a + 2 ^ n * c * 2 := by ring
    have ey : b + 2 ^ (n + 1) * d = b + 2 ^ n * d * 2 := by ring
    have ez : (a ||| b) + 2 ^ (n + 1) * (c ||| d)
        = (a ||| b) + 2 ^ n * (c ||| d) * 2 := by ring
    have hxdiv : (a + 2 ^ (n + 1) * c) / 2 = a / 2 + 2 ^ n * c := by
      rw [ex, Nat.add_mul_div_right _ _ (by norm_num : (0:Nat) < 2)]
    have hydiv : (b + 2 ^ (n + 1) * d) / 2 = b / 2 + 2 ^ n * d := by
      rw [ey, Nat.add_mul_div_right _ _ (by norm_num : (0:Nat) < 2)]
    have hxmod : (a + 2 ^ (n + 1) * c) % 2 = a % 2 := by
      rw [ex, Nat.add_mul_mod_self_right]
    have hymod : (b + 2 ^ (n + 1) * d) % 2 = b % 2 := by
      rw [ey, Nat.add_mul_mod_self_right]
    have had : a / 2 < 2 ^ n := by omega
    have hbd : b / 2 < 2 ^ n := by omega
    have hdiv : ((a + 2 ^ (n + 1) * c) ||| (b + 2 ^ (n + 1) * d)) / 2
        = ((a ||| b) + 2 ^ (n + 1) * (c ||| d)) / 2 := by
      rw [Nat.or_div_two, hxdiv, hydiv, ih _ _ c d had hbd, ez,
        Nat.add_mul_div_right _ _ (by norm_num : (0:Nat) < 2), Nat.or_div_two]
    have hmod : ((a + 2 ^ (n + 1) * c) ||| (b + 2 ^ (n + 1) * d)) % 2
        = ((a ||| b) + 2 ^ (n + 1) * (c ||| d)) % 2 := by
      rw [ez, Nat.add_mul_mod_self_right]
      have h3 := @Nat.or_mod_two_eq_one (a + 2 ^ (n + 1) * c)
        (b + 2 ^ (n + 1) * d)
      have h4 := @Nat.or_mod_two_eq_one a b
      omega
    omega

theorem and_255 (x : Nat) : x &&& 255 = x % 256 := by
  simpa using Nat.and_pow_two_sub_one_eq_mod x 8

/-- OR acts byte-wise on two-byte values. -/
theorem or_bytes2 (x0 x1 y0 y1 : Nat) (hx : x0 < 256) (hy : y0 < 256) :
    (x0 + 256 * x1) ||| (y0 + 256 * y1) = (x0 ||| y0) + 256 * (x1 ||| y1) := by
  have ex : x0 + 256 * x1 = x0 + 2 ^ 8 * x1 := by norm_num
  have ey : y0 + 256 * y1 = y0 + 2 ^ 8 * y1 := by norm_num
  rw [ex, ey, or_split 8 _ _ _ _ (by omega) (by omega)]
  norm_num

/-- OR acts byte-wise on four-byte values. -/
theorem or_bytes4 (x0 x1 x2 x3 y0 y1 y2 y3 : Nat)
    (hx0 : x0 < 256) (hx1 : x1 < 256) (hx2 : x2 < 256)
    (hy0 : y0 < 256) (hy1 : y1 < 256) (hy2 : y2 < 256) :
    (x0 + 256 * x1 + 65536 * x2 + 16777216 * x3) |||
        (y0 + 256 * y1 + 65536 * y2 + 16777216 * y3) =
      (x0 ||| y0) + 256 * (x1 ||| y1) + 65536 * (x2 ||| y2)
        + 16777216 * (x3 ||| y3) := by
  have ex : x0 + 256 * x1 + 65536 * x2 + 16777216 * x3
      = (x0 + 256 * x1) + 2 ^ 16 * (x2 + 256 * x3) := by ring
  have ey : y0 + 256 * y1 + 65536 * y2 + 16777216 * y3
      = (y0 + 256 * y1) + 2 ^ 16 * (y2 + 256 * y3) := by ring
  rw [ex, ey, or_split 16 _ _ _ _ (by omega) (by omega),
    or_bytes2 _ _ _ _ hx0 hy0, or_bytes2 _ _ _ _ hx2 hy2]
  ring

/-- ANDing a four-byte value with the repeated high-byte mask keeps the
odd-numbered bytes. -/
theorem and_mask_hi (x0 x1 x2 x3 : Nat)
    (hx0 : x0 < 256) (hx1 : x1 < 256) (hx2 : x2 < 256) :
    (x0 + 256 * x1 + 65536 * x2 + 16777216 * x3) &&& 0xFF00FF00
      = 256 * x1 + 16777216 * (x3 &&& 255) := by
  have ex : x0 + 256 * x1 + 65536 * x2 + 16777216 * x3
      = (x0 + 256 * x1) + 2 ^ 16 * (x2 + 256 * x3) := by ring
  have em : (0xFF00FF00 : Nat) = (0 + 256 * 255) + 2 ^ 16 * (0 + 256 * 255) := by
    norm_num
  have inner : ∀ u v : Nat, u < 256 →
      (u + 256 * v) &&& (0 + 256 * 255) = 256 * (v &&& 255) := by
    intro u v hu
    have eu : u + 256 * v = u + 2 ^ 8 * v := by norm_num
    have e5 : (0 : Nat) + 256 * 255 = 0 + 2 ^ 8 * 255 := by norm_num
    rw [eu, e5, and_split 8 _ _ _ _ (by omega) (by omega), Nat.and_zero]
    norm_num
  rw [ex, em, and_split 16 _ _ _ _ (by omega) (by omega),
    inner _ _ hx0, inner _ _ hx2]
  have h1255 : x1 &&& 255 = x1 := by rw [and_255]; omega
  rw [h1255]
  ring

/-- ANDing a four-byte value with the repeated low-byte mask keeps the
even-numbered bytes. -/
theorem and_mask_lo (x0 x1 x2 x3 : Nat)
    (hx0 : x0 < 256) (hx1 : x1 < 256) (hx2 : x2 < 256) :
    (x0 + 256 * x1 + 65536 * x2 + 16777216 * x3) &&& 0x00FF00FF
      = x0 + 65536 * x2 := by
  have ex : x0 + 256 * x1 + 65536 * x2 + 16777216 * x3
      = (x0 + 256 * x1) + 2 ^ 16 * (x2 + 256 * x3) := by ring
  have em : (0x00FF00FF : Nat) = (255 + 256 * 0) + 2 ^ 16 * (255 + 256 * 0) := by
    norm_num
  have inner : ∀ u v : Nat, u < 256 →
      (u + 256 * v) &&& (255 + 256 * 0) = u := by
    intro u v hu
    have eu : u + 256 * v = u + 2 ^ 8 * v := by norm_num
    have e5 : (255 : Nat) + 256 * 0 = 255 + 2 ^ 8 * 0 := by norm_num
    rw [eu, e5, and_split 8 _ _ _ _ (by omega) (by omega), Nat.and_zero,
      and_255]
    omega
  rw [ex, em, and_split 16 _ _ _ _ (by omega) (by omega),
    inner _ _ hx0, inner _ _ hx2]
  ring

/- ## Byte-level behaviour of the correction paths -/

/-- Byte-level form of the SWAR word transform: on a word packing four
bytes, each 16-bit half has its two bytes exchanged, independently of
the other half. -/
theorem swap_two_pixels_bytes (b0 b1 b2 b3 : Nat)
    (h0 : b0 < 256) (h1 : b1 < 256) (h2 : b2 < 256) (h3 : b3 < 256) :
    swap_two_pixels (b0 + 256 * b1 + 65536 * b2 + 16777216 * b3) =
      b1 + 256 * b0 + 65536 * b3 + 16777216 * b2 := by
  unfold swap_two_pixels
  rw [and_mask_hi _ _ _ _ h0 h1 h2, and_mask_lo _ _ _ _ h0 h1 h2,
    Nat.shiftRight_eq_div_pow, Nat.shiftLeft_eq]
  have h3255 : b3 &&& 255 = b3 := by rw [and_255]; omega
  rw [h3255]
  have ediv : (256 * b1 + 16777216 * b3) / 2 ^ 8 = b1 + 65536 * b3 := by omega
  have emul : (b0 + 65536 * b2) * 2 ^ 8 = 256 * b0 + 16777216 * b2 := by ring
  rw [ediv, emul]
  have eX : b1 + 65536 * b3 = b1 + 256 * 0 + 65536 * b3 + 16777216 * 0 := by
    ring
  have eY : 256 * b0 + 16777216 * b2
      = 0 + 256 * b0 + 65536 * 0 + 16777216 * b2 := by ring
  rw [eX, eY, or_bytes4 _ _ _ _ _ _ _ _ h1 (by omega) h3 (by omega) h0
    (by omega)]
  simp

theorem bswap16_bytes (b0 b1 : Nat) (h0 : b0 < 256) (h1 : b1 < 256) :
    bswap16 (b0 + 256 * b1) = b1 + 256 * b0 := by
  unfold bswap16
  have e255 : (0xFF : Nat) = 255 := by norm_num
  rw [e255, and_255, Nat.shiftLeft_eq, Nat.shiftRight_eq_div_pow]
  have em : (b0 + 256 * b1) % 256 = b0 := by omega
  have ed : (b0 + 256 * b1) / 2 ^ 8 = b1 := by omega
  rw [em, ed]
  rw [show b0 * 2 ^ 8 = 0 + 256 * b0 by ring,
    show (b1 : Nat) = b1 + 256 * 0 by ring]
  rw [or_bytes2 _ _ _ _ (by omega) h1]
  simp

theorem swap16_scalar_bytes (b0 b1 : Nat) (h0 : b0 < 256) (h1 : b1 < 256) :
    swap16_scalar (b0 + 256 * b1) = b1 + 256 * b0 := by
  unfold swap16_scalar
  rw [Nat.shiftLeft_eq, Nat.shiftRight_eq_div_pow]
  have ed : (b0 + 256 * b1) / 2 ^ 8 = b1 := by omega
  rw [ed]
  rw [show (b0 + 256 * b1) * 2 ^ 8 = 0 + 256 * (b0 + 256 * b1) by ring,
    show (b1 : Nat) = b1 + 256 * 0 by ring]
  rw [or_bytes2 _ _ _ _ h1 (by omega)]
  simp only [Nat.or_zero, Nat.zero_or]
  omega

/-- The raw OR of the manual correction path, `(p << 8) | (p >> 8)` in
`int` arithmetic, truncated to 16 bits, is the byte swap. -/
theorem manual_inner_bytes (b0 b1 : Nat) (h0 : b0 < 256) (h1 : b1 < 256) :
    (((b0 + 256 * b1) <<< 8) ||| ((b0 + 256 * b1) >>> 8)) % 2 ^ 16
      = b1 + 256 * b0 := by
  rw [Nat.shiftLeft_eq, Nat.shiftRight_eq_div_pow]
  have ed : (b0 + 256 * b1) / 2 ^ 8 = b1 := by omega
  rw [ed]
  rw [show (b0 + 256 * b1) * 2 ^ 8 = 0 + 256 * (b0 + 256 * b1) by ring,
    show (b1 : Nat) = b1 + 256 * 0 by ring]
  rw [or_bytes2 _ _ _ _ (by omega) h1]
  simp only [Nat.or_zero, Nat.zero_or]
  omega

theorem swap16_scalar_lt (p : Nat) : swap16_scalar p < 2 ^ 16 :=
  Nat.mod_lt _ (by norm_num)

theorem bswap16_eq_swap16_scalar (p : Nat) (hp : p < 2 ^ 16) :
    bswap16 p = swap16_scalar p := by
  have ep : p = p % 256 + 256 * (p / 256) := by omega
  rw [ep, bswap16_bytes _ _ (by omega) (by omega),
    swap16_scalar_bytes _ _ (by omega) (by omega)]

theorem swap_two_pixels_pack (p q : Nat) (hp : p < 2 ^ 16) (hq : q < 2 ^ 16) :
    swap_two_pixels (p + 2 ^ 16 * q)
      = swap16_scalar p + 2 ^ 16 * swap16_scalar q := by
  have ep : p = p % 256 + 256 * (p / 256) := by omega
  have eq' : q = q % 256 + 256 * (q / 256) := by omega
  rw [ep, eq', swap16_scalar_bytes _ _ (by omega) (by omega),
    swap16_scalar_bytes _ _ (by omega) (by omega)]
  rw [show p % 256 + 256 * (p / 256) + 2 ^ 16 * (q % 256 + 256 * (q / 256))
      = p % 256 + 256 * (p / 256) + 65536 * (q % 256) + 16777216 * (q / 256)
    by ring]
  rw [swap_two_pixels_bytes _ _ _ _ (by omega) (by omega) (by omega)
    (by omega)]
  ring

theorem swap16_scalar_invol (p : Nat) (hp : p < 2 ^ 16) :
    swap16_scalar (swap16_scalar p) = p := by
  have ep : p = p % 256 + 256 * (p / 256) := by omega
  rw [ep, swap16_scalar_bytes _ _ (by omega) (by omega),
    swap16_scalar_bytes _ _ (by omega) (by omega)]

theorem swar_eq_map : ∀ l : List Nat, (∀ x ∈ l, x < 2 ^ 16) →
    l.length % 2 = 0 → swar_swap_buffer l = l.map swap16_scalar
  | [], _, _ => rfl
  | [p], _, he => by simp at he
  | p :: q :: rest, h, he => by
    have hp : p < 2 ^ 16 := h p (by simp)
    have hq : q < 2 ^ 16 := h q (by simp)
    have ih := swar_eq_map rest (fun x hx => h x (by simp [hx]))
      (by simp only [List.length_cons] at he; omega)
    simp only [swar_swap_buffer, List.map, ih]
    rw [swap_two_pixels_pack p q hp hq]
    have h1 := swap16_scalar_lt p
    have h2 := swap16_scalar_lt q
    have e1 : (swap16_scalar p + 2 ^ 16 * swap16_scalar q) % 2 ^ 16
        = swap16_scalar p := by omega
    have e2 : (swap16_scalar p + 2 ^ 16 * swap16_scalar q) / 2 ^ 16
        = swap16_scalar q := by omega
    rw [e1, e2]

theorem not16_congr (a b : Nat) (h : a % 2 ^ 16 = b % 2 ^ 16) :
    not16 a = not16 b := by
  unfold not16
  rw [h]

theorem correct_intrinsic_eq_manual (p : Nat) (hp : p < 2 ^ 16) :
    correct_intrinsic p = correct_manual p := by
  unfold correct_intrinsic correct_manual
  refine not16_congr _ _ ?_
  have ep : p = p % 256 + 256 * (p / 256) := by omega
  rw [ep, bswap16_bytes _ _ (by omega) (by omega),
    manual_inner_bytes _ _ (by omega) (by omega)]
  omega

theorem flush_pixel_eq_not_swap (b : Bool) (p : Nat) (hp : p < 2 ^ 16) :
    flush_pixel b p = not16 (swap16_scalar p) := by
  have ep : p = p % 256 + 256 * (p / 256) := by omega
  cases b with
  | true =>
    show correct_intrinsic p = not16 (swap16_scalar p)
    unfold correct_intrinsic
    refine not16_congr _ _ ?_
    rw [ep, bswap16_bytes _ _ (by omega) (by omega),
      swap16_scalar_bytes _ _ (by omega) (by omega)]
  | false =>
    show correct_manual p = not16 (swap16_scalar p)
    unfold correct_manual
    refine not16_congr _ _ ?_
    rw [ep, manual_inner_bytes _ _ (by omega) (by omega),
      swap16_scalar_bytes _ _ (by omega) (by omega)]
    omega

/- ## Tiling, throttling and clamping lemmas -/

theorem render_invocations_eq : ∀ (h s : Nat), 0 < h → 0 < s →
    render_invocations h s = (h + s - 1) / s := by
  intro h s
  induction h using Nat.strong_induction_on with
  | _ h ih =>
    intro hh hs
    rw [render_invocations, if_neg (by omega)]
    by_cases hcase : h ≤ s
    · rw [show h - s = 0 by omega, render_invocations, if_pos (by omega)]
      have hdiv : (h + s - 1) / s = 1 := by
        refine Nat.div_eq_of_lt_le (by omega) (by omega)
      omega
    · rw [ih (h - s) (by omega) (by omega) (by omega),
        show h - s + s - 1 = h - 1 by omega,
        show h + s - 1 = (h - 1) + s by omega,
        Nat.add_div_right _ hs]
      omega

theorem throttled_logs_spacing : ∀ (ts : List Nat) (last : Nat),
    last < 2 ^ 32 → (∀ t ∈ ts, t < 2 ^ 32) →
    List.Chain' (· ≤ ·) (last :: ts) →
    List.Chain' (fun a b => a + 5000 < b) (last :: throttled_logs last ts)
  | [], _, _, _, _ => by simp [throttled_logs]
  | t :: ts, last, hl, hb, hc => by
    have hlt : last ≤ t := (List.chain'_cons.mp hc).1
    have hct : List.Chain' (· ≤ ·) (t :: ts) := (List.chain'_cons.mp hc).2
    have hbt : t < 2 ^ 32 := hb t (by simp)
    have hbs : ∀ u ∈ ts, u < 2 ^ 32 := fun u hu => hb u (by simp [hu])
    unfold throttled_logs
    by_cases h5 : 5000 < sub_u32 t last
    · rw [if_pos h5]
      have hsub : sub_u32 t last = t - last := by unfold sub_u32; omega
      have ih := throttled_logs_spacing ts t hbt hbs hct
      exact List.chain'_cons.mpr ⟨by omega, ih⟩
    · rw [if_neg h5]
      have hc' : List.Chain' (· ≤ ·) (last :: ts) := by
        cases ts with
        | nil => simp
        | cons u ts' =>
          have h1 : t ≤ u := (List.chain'_cons.mp hct).1
          exact List.chain'_cons.mpr
            ⟨by omega, (List.chain'_cons.mp hct).2⟩
      exact throttled_logs_spacing ts last hl hbs hc'

theorem clamp_le (z : Int) (res : Nat) (h1 : 0 < res) (h2 : res ≤ 65535) :
    to_uint16 (if (if z < 0 then 0 else z) ≥ (res : Int) then (res : Int) - 1
      else (if z < 0 then 0 else z)) ≤ res - 1 := by
  unfold to_uint16
  split_ifs <;> omega

/- ## Claim theorems -/

/-- Claim C1: the word-parallel transform ((w AND 0xFF00FF00) >> 8) OR
((w AND 0x00FF00FF) << 8) equals byte-swapping each of the two packed
16-bit pixels independently (pixels do not bleed into each other);
therefore for every pixel buffer of even pixel count the word-parallel
byte swap of the whole buffer is bit-identical to applying the scalar
per-pixel byte swap to every pixel, and applying the swap twice returns
the original buffer. -/
theorem claim_C1 (p q : Nat) (hp : p < 2 ^ 16) (hq : q < 2 ^ 16)
    (l : List Nat) (hl : ∀ x ∈ l, x < 2 ^ 16) (he : l.length % 2 = 0) :
    swap_two_pixels (p + 2 ^ 16 * q)
        = swap16_scalar p + 2 ^ 16 * swap16_scalar q
      ∧ swar_swap_buffer l = l.map swap16_scalar
      ∧ swar_swap_buffer (swar_swap_buffer l) = l := by
  refine ⟨swap_two_pixels_pack p q hp hq, swar_eq_map l hl he, ?_⟩
  have hl2 : ∀ x ∈ l.map swap16_scalar, x < 2 ^ 16 := by
    intro x hx
    obtain ⟨y, hy, rfl⟩ := List.mem_map.mp hx
    exact swap16_scalar_lt y
  have he2 : (l.map swap16_scalar).length % 2 = 0 := by simpa using he
  rw [swar_eq_map l hl he, swar_eq_map _ hl2 he2, List.map_map]
  have hcong : List.map (swap16_scalar ∘ swap16_scalar) l = List.map id l :=
    List.map_congr_left (fun x hx => swap16_scalar_invol x (hl x hx))
  rw [hcong, List.map_id]

/-- Witness for claim C1 at two concrete pixels and a concrete buffer. -/
theorem claim_C1_witness :
    swap_two_pixels (4660 + 2 ^ 16 * 43981)
        = swap16_scalar 4660 + 2 ^ 16 * swap16_scalar 43981
      ∧ swar_swap_buffer [4660, 43981] = [4660, 43981].map swap16_scalar
      ∧ swar_swap_buffer (swar_swap_buffer [4660, 43981]) = [4660, 43981] :=
  claim_C1 4660 43981 (by norm_num) (by norm_num) [4660, 43981]
    (by decide) (by decide)

/-- Claim C2 is refuted by the SWAR routine at the 3-pixel buffer: the
word count is len32 = 1, yet the unrolled loop bound len32 - 8
underflows in size_t, so the loop body executes and touches word index
7, beyond the single valid word; and the trailing pixel (index 2) lies
in no 32-bit word, while the routine has no scalar per-pixel tail. -/
theorem claim_C2_code_bug_eval :
    swar_len32 3 = 1
      ∧ 0 < unrolled_bound (swar_len32 3)
      ∧ (∃ j ∈ unrolled_body_accesses 0, swar_len32 3 ≤ j)
      ∧ 2 * swar_len32 3 < 3 := by decide

/-- Claim C3 counterexample: in the src/main/sys/lvgl_port.cpp flush
path the complement is applied under both recognized configurations of
LvglPort::Config (use_intrinsics true and false); already at pixel 0
neither configuration returns the plain byte swap. -/
theorem claim_C3_counterexample :
    flush_pixel true 0 ≠ bswap16 0 ∧ flush_pixel false 0 ≠ swap16_scalar 0 := by
  decide

/-- Claim C3 (amended): in the src/main/sys/lvgl_port.cpp flush path,
polarity inversion is applied unconditionally - for every recognized
configuration and every pixel the flush output is the complement of the
byte-swapped pixel; LvglPort::Config has no polarity-invert option. -/
theorem claim_C3_amended (use_intrinsics : Bool) (p : Nat) (hp : p < 2 ^ 16) :
    flush_pixel use_intrinsics p = not16 (swap16_scalar p) :=
  flush_pixel_eq_not_swap use_intrinsics p hp

/-- Witness for claim C3 (amended) at a concrete configuration and
pixel. -/
theorem claim_C3_witness :
    flush_pixel true 4660 = not16 (swap16_scalar 4660) :=
  claim_C3_amended true 4660 (by norm_num)

/-- Claim C4 counterexample: in src/main/sys/lvgl_port.cpp, when double
buffering is requested, the first allocation succeeds and the second
fails, init does not abort - it proceeds to set_buffers with a null
second buffer. -/
theorem claim_C4_counterexample :
    init_main true true false ≠ InitOutcome.aborted := by decide

/-- Claim C4 (amended): a first-buffer allocation failure aborts init
before set_buffers and task creation in both variants; in the
src/unnamed/part_007 variant a second-buffer failure under double
buffering also aborts; but in the src/main/sys/lvgl_port.cpp variant
only the first buffer is checked, and a failed second buffer lets init
proceed with a null second buffer. -/
theorem claim_C4_amended :
    (∀ dbl a2 : Bool, init_main dbl false a2 = InitOutcome.aborted)
      ∧ (∀ dbl a1 a2 : Bool,
          init_p7 dbl a1 a2 = InitOutcome.aborted
            ↔ (a1 = false ∨ (dbl = true ∧ a2 = false)))
      ∧ init_main true true false = InitOutcome.started false := by decide

/-- Claim C5: for every dirty-region height h > 0 and strip height
s > 0 the number of rasterization invocations covering the region is
ceil(h / s); in particular a 240-row region needs 12 invocations at
strip height 20, 2 at 120, and 1 at 240. -/
theorem claim_C5 (h s : Nat) (hh : 0 < h) (hs : 0 < s) :
    render_invocations h s = (h + s - 1) / s
      ∧ render_invocations 240 20 = 12
      ∧ render_invocations 240 120 = 2
      ∧ render_invocations 240 240 = 1 := by
  refine ⟨render_invocations_eq h s hh hs, ?_, ?_, ?_⟩ <;>
    rw [render_invocations_eq _ _ (by norm_num) (by norm_num)]

/-- Witness for claim C5 at the concrete 240-row, 20-line strip case. -/
theorem claim_C5_witness :
    render_invocations 240 20 = (240 + 20 - 1) / 20
      ∧ render_invocations 240 20 = 12
      ∧ render_invocations 240 120 = 2
      ∧ render_invocations 240 240 = 1 :=
  claim_C5 240 20 (by norm_num) (by norm_num)

/-- Claim C6 counterexample: no recognized configuration of the buffer
sizing yields the spec-recognized strip height 120 (half frame): both
values of full_frame at the 240 x 240 geometry give a size different
from 240 * 120 * 2 bytes - the strip extent is hard-coded at 20
lines. -/
theorem claim_C6_counterexample :
    draw_buffer_sz 240 240 true ≠ 240 * 120 * 2
      ∧ draw_buffer_sz 240 240 false ≠ 240 * 120 * 2 := by decide

/-- Claim C6 (amended): the allocation offers exactly two extents - the
full frame h_res * v_res * 2 bytes, and a strip hard-coded at 20 lines,
h_res * 20 * 2 bytes; strip height is not a configurable parameter. -/
theorem claim_C6_amended (h v : Nat) :
    draw_buffer_sz h v false = h * 20 * 2
      ∧ draw_buffer_sz h v true = h * v * 2 := by
  constructor <;> simp [draw_buffer_sz]

/-- Claim C7 counterexample: the render task loop waits on the mutex
with the timeout argument -1, which lock maps to portMAX_DELAY - an
unbounded wait. -/
theorem claim_C7_counterexample :
    lock_wait task_loop_lock_timeout = WaitBound.unbounded := by decide

/-- Claim C7 (amended): every lock call with a timeout other than -1
(0xFFFFFFFF) waits at most that many milliseconds and returns false
after the timeout; but the timeout value -1 is mapped to portMAX_DELAY,
and the render task loop itself passes -1, an unbounded wait. -/
theorem claim_C7_amended :
    (∀ t : Nat, t ≠ 0xFFFFFFFF → lock_wait t = WaitBound.bounded t)
      ∧ lock_wait task_loop_lock_timeout = WaitBound.unbounded := by
  constructor
  · intro t ht
    simp [lock_wait, ht]
  · decide

/-- Witness for claim C7 (amended) at a concrete finite timeout. -/
theorem claim_C7_witness : lock_wait 100 = WaitBound.bounded 100 :=
  claim_C7_amended.1 100 (by norm_num)

/-- Claim C8: when the touch-controller I2C read times out, the input
cycle reports no touch (Released, no point), and timeout warnings are
throttled - for any nondecreasing sequence of timeout-event timestamps,
consecutive logged warnings (starting from the initial
last_timeout_log = 0) are more than 5000 ms apart. -/
theorem claim_C8 (cfg : TouchCfg) (ts : List Nat)
    (hb : ∀ t ∈ ts, t < 2 ^ 32) (hs : List.Chain' (· ≤ ·) (0 :: ts)) :
    read_cb_result none cfg = none
      ∧ List.Chain' (fun a b => a + 5000 < b) (0 :: throttled_logs 0 ts) :=
  ⟨rfl, throttled_logs_spacing ts 0 (by norm_num) hb hs⟩

/-- Witness for claim C8 at a concrete configuration and timestamp
sequence. -/
theorem claim_C8_witness :
    read_cb_result none ⟨240, 240, false, true, true⟩ = none
      ∧ List.Chain' (fun a b => a + 5000 < b)
          (0 :: throttled_logs 0 [6000, 8000, 12000]) :=
  claim_C8 ⟨240, 240, false, true, true⟩ [6000, 8000, 12000]
    (by decide) (by norm_num [List.chain'_cons])

/-- Claim C9: the intrinsic correction ~bswap16(p) and the manual
correction ~((uint16)((p << 8) | (p >> 8))) agree on every 16-bit
pixel, so the use_intrinsics = true and use_intrinsics = false
configurations produce byte-identical corrected buffers. -/
theorem claim_C9 (p : Nat) (hp : p < 2 ^ 16)
    (l : List Nat) (hl : ∀ x ∈ l, x < 2 ^ 16) :
    correct_intrinsic p = correct_manual p
      ∧ flush_buffer true l = flush_buffer false l := by
  refine ⟨correct_intrinsic_eq_manual p hp, ?_⟩
  unfold flush_buffer
  refine List.map_congr_left fun x hx => ?_
  have hx16 := correct_intrinsic_eq_manual x (hl x hx)
  simpa [flush_pixel] using hx16

/-- Witness for claim C9 at a concrete pixel and buffer. -/
theorem claim_C9_witness :
    correct_intrinsic 4660 = correct_manual 4660
      ∧ flush_buffer true [0, 65535] = flush_buffer false [0, 65535] :=
  claim_C9 4660 (by norm_num) [0, 65535] (by decide)

/-- Claim C10: for every 6-byte packet and orientation configuration,
status byte 0x01 yields pressed = true with both coordinates clamped
into the screen bounds, and any other status byte yields
pressed = false with the coordinate outputs left unchanged. -/
theorem claim_C10 (cfg : TouchCfg) (data : Fin 6 → Nat) (prev : TouchState)
    (hh : 0 < cfg.h_res) (hv : 0 < cfg.v_res)
    (hh2 : cfg.h_res ≤ 65535) (hv2 : cfg.v_res ≤ 65535) :
    (data 0 = 1 →
      (chsc6x_decode cfg data prev).pressed = true
        ∧ (chsc6x_decode cfg data prev).x ≤ cfg.h_res - 1
        ∧ (chsc6x_decode cfg data prev).y ≤ cfg.v_res - 1)
      ∧ (data 0 ≠ 1 →
        chsc6x_decode cfg data prev = ⟨prev.x, prev.y, false⟩) := by
  constructor
  · intro h1
    unfold chsc6x_decode
    rw [if_pos h1]
    exact ⟨rfl, clamp_le _ _ hh hh2, clamp_le _ _ hv hv2⟩
  · intro h1
    unfold chsc6x_decode
    rw [if_neg h1]

/-- Witness for claim C10 at a concrete packet, configuration, and
prior state. -/
theorem claim_C10_witness :
    ((![1, 0, 200, 1, 100, 0] : Fin 6 → Nat) 0 = 1 →
      (chsc6x_decode ⟨240, 240, true, true, false⟩ ![1, 0, 200, 1, 100, 0]
          ⟨7, 8, true⟩).pressed = true
        ∧ (chsc6x_decode ⟨240, 240, true, true, false⟩ ![1, 0, 200, 1, 100, 0]
            ⟨7, 8, true⟩).x ≤ 240 - 1
        ∧ (chsc6x_decode ⟨240, 240, true, true, false⟩ ![1, 0, 200, 1, 100, 0]
            ⟨7, 8, true⟩).y ≤ 240 - 1)
      ∧ ((![1, 0, 200, 1, 100, 0] : Fin 6 → Nat) 0 ≠ 1 →
        chsc6x_decode ⟨240, 240, true, true, false⟩ ![1, 0, 200, 1, 100, 0]
          ⟨7, 8, true⟩ = ⟨7, 8, false⟩) :=
  claim_C10 ⟨240, 240, true, true, false⟩ ![1, 0, 200, 1, 100, 0] ⟨7, 8, true⟩
    (by norm_num) (by norm_num) (by norm_num) (by norm_num)
